import Mathlib

/-!
Verification development for the crypto_quant trading system.

The C++ sources are shallowly embedded in Lean 4:

* `double` values flowing through the strategy indicators are modelled as
  exact rationals (`ℚ`).  The two divisions that the C++ code performs
  without a zero guard (the mean-reversion z-score and the momentum ratio)
  are modelled by `fdiv`, which returns an IEEE-754-style result
  (`finite / +inf / -inf / NaN`) so that the behaviour of the unguarded
  code on a zero divisor is represented faithfully; the comparison
  operators on such results (`fgt`, `flt`) return `false` on NaN exactly
  as the C++ `>` / `<` operators do.
* `std::sqrt` is a libm call, external to the repository; the
  mean-reversion embedding therefore takes the square-root function as an
  explicit parameter `sqrtFn`, and theorems assume only properties every
  square root implementation has (such as `sqrtFn 0 = 0`).
* network transports (libcurl) and JSON parsing (nlohmann) are external:
  requests are modelled by an explicit count of network sends, and
  responses by small inductive types describing the parse outcome the
  C++ code branches on.
* the byte-order converters operate on the 64-bit *bit pattern* of each
  field (the C code reinterprets doubles through a union), so that unit is
  modelled on 64-bit words (`ℕ` below `2^64`).
-/

namespace CryptoQuant

/-- Trading symbols: the closed 3-value enumeration `symbol_t`
(SYMBOL_BTC_USDT = 0, SYMBOL_ETH_USDT = 1, SYMBOL_BTC_ETH = 2). -/
inductive Symbol
  | btcUsdt
  | ethUsdt
  | btcEth
  deriving Repr, DecidableEq

/-- Enum value of a symbol, as used for array indexing in the C++ code. -/
def Symbol.idx : Symbol → ℕ
  | .btcUsdt => 0
  | .ethUsdt => 1
  | .btcEth => 2

/-- Model of `static_cast<symbol_t>(n)` for the byte read back from the wire;
the wire record is only produced from valid symbols 0..2. -/
def Symbol.fromByte : ℕ → Symbol
  | 0 => .btcUsdt
  | 1 => .ethUsdt
  | 2 => .btcEth
  | _ => .btcUsdt

/-- Enum `SignalType` from crypto_quant.h. -/
inductive SignalType
  | sigNone
  | buy
  | sell
  | hold
  deriving Repr, DecidableEq

/-- Enum `StrategyStatus` from crypto_quant.h. -/
inductive StrategyStatus
  | stopped
  | running
  | paused
  deriving Repr, DecidableEq

/-- Enum `ExecutionStatus` from crypto_quant.h. -/
inductive ExecutionStatus
  | idle
  | connecting
  | connected
  | disconnected
  | error
  deriving Repr, DecidableEq

/-- Enum `ExecutionResultStatus` from crypto_quant.h. -/
inductive ExecResultStatus
  | success
  | failed
  | partFilled
  deriving Repr, DecidableEq

/-- Struct `price_level_t`: price and quantity modelled as exact rationals,
timestamp in epoch milliseconds. -/
structure PriceLevel where
  price : ℚ
  quantity : ℚ
  timestamp : ℕ
  deriving Repr, DecidableEq

/-- The all-zero price level (`memset` initial contents of a level slot). -/
def zeroLevel : PriceLevel := { price := 0, quantity := 0, timestamp := 0 }

/-- Struct `orderbook_t`: the fixed 20-slot arrays `bids`/`asks` are modelled as
lists (index `i` of the C array is `bids.getD i zeroLevel`, so a slot that
was never written reads as the `memset` zero level). -/
structure Orderbook where
  symbol : Symbol
  bids : List PriceLevel
  asks : List PriceLevel
  bidCount : ℕ
  askCount : ℕ
  timestamp : ℕ
  deriving Repr, DecidableEq

/-- A fully zeroed `orderbook_t` (what `orderbook_t{}` value-initialises
to, and what `memset(&ob, 0, sizeof ob)` produces): both sides empty,
all 20 level slots zero, timestamp 0, symbol byte 0 = BTC_USDT. -/
def obZeroed : Orderbook :=
  { symbol := .btcUsdt
    bids := List.replicate 20 zeroLevel
    asks := List.replicate 20 zeroLevel
    bidCount := 0
    askCount := 0
    timestamp := 0 }

/-! ### IEEE-style division results

The strategy code divides doubles without checking the divisor.  `fdiv`
captures IEEE-754 division of exact finite operands: a zero divisor gives
NaN (for a zero dividend) or a signed infinity, and `fgt`/`flt` are the
C++ `>` / `<` comparisons against a finite threshold, which are false on
NaN. -/

/-- Result of an IEEE double division of exact finite operands. -/
inductive FVal
  | fin (q : ℚ)
  | pinf
  | ninf
  | nan
  deriving Repr, DecidableEq

/-- IEEE division `a / b` of finite exact operands. -/
def fdiv (a b : ℚ) : FVal :=
  if b = 0 then
    if a = 0 then .nan else if 0 < a then .pinf else .ninf
  else .fin (a / b)

/-- C++ `x > t` where `x` is the division result and `t` a finite value;
false on NaN. -/
def fgt : FVal → ℚ → Bool
  | .fin q, t => decide (t < q)
  | .pinf, _ => true
  | .ninf, _ => false
  | .nan, _ => false

/-- C++ `x < t` where `x` is the division result and `t` a finite value;
false on NaN. -/
def flt : FVal → ℚ → Bool
  | .fin q, t => decide (q < t)
  | .pinf, _ => false
  | .ninf, _ => true
  | .nan, _ => false

/-! ### Strategy price histories

Each strategy keeps, per symbol, a `std::vector<double>` of mid-prices.
`processMarketData` pushes the snapshot's mid-price and then erases the
front element if the size exceeded 100.  All three strategies index only
the history of the snapshot's own symbol, so the embedding works on that
single per-symbol history list. -/

/-- The mid-price the strategies compute: `(bids[0].price + asks[0].price) / 2`.
The C++ code reads the level-0 slots unconditionally (no emptiness check),
so an unwritten slot contributes its `memset` value 0. -/
def obMid (ob : Orderbook) : ℚ :=
  ((ob.bids.getD 0 zeroLevel).price + (ob.asks.getD 0 zeroLevel).price) / 2

/-- Model of `history.push_back(mid)` followed by `history.erase(history.begin())`
when the size exceeds 100. -/
def pushPrice (h : List ℚ) (p : ℚ) : List ℚ :=
  let h' := h ++ [p]
  if 100 < h'.length then h'.tail else h'

/-- The most recent `n` samples: the elements the C++ loops
`for (i = size - n; i < size; ++i)` / `history[size - 1 - i]` visit. -/
def lastN (h : List ℚ) (n : ℕ) : List ℚ := h.drop (h.length - n)

/-! ### Mean-reversion strategy (mean_reversion_strategy.cpp) -/

/-- Mean-reversion parameters (`lookback_period`, `z_score_threshold`). -/
structure MRParams where
  lookback : ℕ
  zThr : ℚ
  deriving Repr, DecidableEq

/-- The z-score computed once enough history exists:
mean and population variance over the most recent `lookback` samples,
`std_dev = sqrt(variance / lookback)` (the square-root function is a
parameter, see the file header), then the *unguarded* division
`(current - mean) / std_dev`. -/
def meanRevZ (sqrtFn : ℚ → ℚ) (P : MRParams) (h' : List ℚ) : FVal :=
  let window := lastN h' P.lookback
  let mean := window.sum / (P.lookback : ℚ)
  let variance := (window.map fun x => (x - mean) * (x - mean)).sum
  let stdDev := sqrtFn (variance / (P.lookback : ℚ))
  fdiv (h'.getLast?.getD 0 - mean) stdDev

/-- Embedding of `MeanReversionStrategy::processMarketData`: returns the signal and the
new per-symbol history.  Not-running status returns NONE without touching
the history; otherwise the mid-price is pushed unconditionally, NONE is
returned while fewer than `lookback` samples exist, and otherwise the
z-score decides SELL / BUY / NONE. -/
def meanRevStep (sqrtFn : ℚ → ℚ) (P : MRParams) (st : StrategyStatus)
    (h : List ℚ) (ob : Orderbook) : SignalType × List ℚ :=
  if st ≠ .running then (.sigNone, h)
  else
    let h' := pushPrice h (obMid ob)
    if h'.length < P.lookback then (.sigNone, h')
    else
      let z := meanRevZ sqrtFn P h'
      if fgt z P.zThr then (.sell, h')
      else if flt z (-P.zThr) then (.buy, h')
      else (.sigNone, h')

/-! ### Momentum strategy (momentum_strategy.cpp) -/

/-- Momentum parameters (`short_period`, `long_period`, `momentum_threshold`). -/
structure MomParams where
  shortP : ℕ
  longP : ℕ
  thr : ℚ
  deriving Repr, DecidableEq

/-- The short/long moving averages and the *unguarded* momentum division
`(short_ma - long_ma) / long_ma` on the post-push history. -/
def momentumVal (P : MomParams) (h' : List ℚ) : FVal :=
  let shortMa := (lastN h' P.shortP).sum / (P.shortP : ℚ)
  let longMa := (lastN h' P.longP).sum / (P.longP : ℚ)
  fdiv (shortMa - longMa) longMa

/-- Embedding of `MomentumStrategy::processMarketData`. -/
def momentumStep (P : MomParams) (st : StrategyStatus)
    (h : List ℚ) (ob : Orderbook) : SignalType × List ℚ :=
  if st ≠ .running then (.sigNone, h)
  else
    let h' := pushPrice h (obMid ob)
    if h'.length < P.longP then (.sigNone, h')
    else
      let m := momentumVal P h'
      if fgt m P.thr then (.buy, h')
      else if flt m (-P.thr) then (.sell, h')
      else (.sigNone, h')

/-! ### RSI strategy (rsi_strategy.cpp) -/

/-- RSI parameters (`rsi_period`, `rsi_oversold`, `rsi_overbought`). -/
structure RsiParams where
  period : ℕ
  oversold : ℚ
  overbought : ℚ
  deriving Repr, DecidableEq

/-- The consecutive price changes `prices[i] - prices[i-1]` visited by
`calculateRSI`'s loop `for (i = size - period; i < size; ++i)`. -/
def rsiChanges (prices : List ℚ) (period : ℕ) : List ℚ :=
  (List.range period).map fun k =>
    let i := prices.length - period + k
    prices.getD i 0 - prices.getD (i - 1) 0

/-- The `avg_gain`: positive changes summed, divided by the period. -/
def rsiAvgGain (prices : List ℚ) (period : ℕ) : ℚ :=
  ((rsiChanges prices period).map fun c => if 0 < c then c else 0).sum / (period : ℚ)

/-- The `avg_loss`: absolute values of non-positive changes summed, divided by
the period. -/
def rsiAvgLoss (prices : List ℚ) (period : ℕ) : ℚ :=
  ((rsiChanges prices period).map fun c => if 0 < c then 0 else -c).sum / (period : ℚ)

/-- Embedding of `RSIStrategy::calculateRSI`: 50 with fewer than `period + 1` samples;
100 when `avg_loss` is zero (this guard *is* present in the source);
otherwise `100 - 100 / (1 + avg_gain / avg_loss)`. -/
def calculateRSI (prices : List ℚ) (period : ℕ) : ℚ :=
  if prices.length < period + 1 then 50
  else
    let avgGain := rsiAvgGain prices period
    let avgLoss := rsiAvgLoss prices period
    if avgLoss = 0 then 100
    else 100 - 100 / (1 + avgGain / avgLoss)

/-- Embedding of `RSIStrategy::processMarketData`. -/
def rsiStep (P : RsiParams) (st : StrategyStatus)
    (h : List ℚ) (ob : Orderbook) : SignalType × List ℚ :=
  if st ≠ .running then (.sigNone, h)
  else
    let h' := pushPrice h (obMid ob)
    if h'.length < P.period + 1 then (.sigNone, h')
    else
      let rsi := calculateRSI h' P.period
      if rsi < P.oversold then (.buy, h')
      else if P.overbought < rsi then (.sell, h')
      else (.sigNone, h')

/-! ### OrderbookManager (orderbook/orderbook_manager.cpp)

State: a `std::vector<orderbook_t>` of size 3 indexed by the symbol's enum
value.  The constructor `memset`s each entry to zero and then stamps it
with the construction wall-clock time in milliseconds, which the model
takes as the parameter `t0`. -/

/-- Orderbook-manager state. -/
structure MgrState where
  books : List Orderbook
  deriving Repr, DecidableEq

/-- The freshly constructed manager: three zeroed books whose timestamp is
the construction time `t0`. -/
def mgrInit (t0 : ℕ) : MgrState :=
  { books := List.replicate 3 { obZeroed with timestamp := t0 } }

/-- Embedding of `OrderbookManager::updateOrderbook`: replace the entry at the
snapshot's symbol index; out-of-range indices are rejected (symbols of the
3-value enum are always in range while the vector has its 3 entries). -/
def updateOrderbook (m : MgrState) (ob : Orderbook) : MgrState :=
  if ob.symbol.idx < m.books.length then
    { books := m.books.set ob.symbol.idx ob }
  else m

/-- Embedding of `OrderbookManager::getOrderbook`: the stored entry, or a
value-initialised `orderbook_t{}` (all zero) for an out-of-range index. -/
def getOrderbook (m : MgrState) (s : Symbol) : Orderbook :=
  if s.idx < m.books.length then m.books.getD s.idx obZeroed else obZeroed

/-- A sequence of `updateOrderbook` calls applied in order. -/
def applyUpdates (m : MgrState) (l : List Orderbook) : MgrState :=
  l.foldl updateOrderbook m

/-- The "empty/zero snapshot" in the words of the specification: every
field zero. -/
def specEmptySnapshot : Orderbook := obZeroed

/-! ### OrderExecutor (execution/order_executor.cpp)

The HTTP transport and JSON parsing are external (libcurl / nlohmann), so
a call's response is modelled by the parse outcome the code branches on,
and each operation also returns how many signed network requests it sent. -/

/-- Struct `RiskParams` from crypto_quant.h. -/
structure RiskParams where
  maxPositionSize : ℚ
  maxDailyLoss : ℚ
  maxOrderSize : ℚ
  maxOrdersPerMinute : ℕ
  deriving Repr, DecidableEq

/-- Struct `ExecutionResult` from crypto_quant.h. -/
structure ExecResult where
  status : ExecResultStatus
  orderId : ℕ
  filledQty : ℚ
  avgPrice : ℚ
  errMsg : String
  deriving Repr, DecidableEq

/-- The default-constructed `ExecutionResult` (status FAILED, zeros). -/
def execResultInit : ExecResult :=
  { status := .failed, orderId := 0, filledQty := 0, avgPrice := 0, errMsg := "" }

/-- The `status` string of a successful order response, as far as
`submitOrder` distinguishes it. -/
inductive OrdStatus
  | filled
  | partiallyFilled
  | otherStatus
  deriving Repr, DecidableEq

/-- Parse outcome of the POST /api/v3/order response:
`ok` = JSON object containing `orderId` (with the `executedQty`/`price`
values resolved by `json::value`, and the optional `status` field);
`apiError` = object with a `code` field; `invalid` = well-formed JSON with
neither; `parseFail` = `json::parse` threw. -/
inductive OrderResponse
  | ok (orderId : ℕ) (executedQty : ℚ) (price : ℚ) (statusField : Option OrdStatus)
  | apiError (code : ℤ) (msg : String)
  | invalid
  | parseFail (what : String)
  deriving Repr, DecidableEq

/-- Gateway state of `OrderExecutor` (order_executor.cpp): connection
status, risk limits, credentials and the in-memory order history
(`order_history_`, here an association list keyed by exchange order id). -/
structure ExecState where
  status : ExecutionStatus
  risk : RiskParams
  apiKey : String
  apiSecret : String
  history : List (ℕ × ExecResult)
  deriving Repr, DecidableEq

/-- Embedding of `OrderExecutor::submitOrder`.  Returns the result, the new state and
the number of signed network requests performed.  The two local-reject
paths (not connected / order size above `max_order_size`) return FAILED
before any request is built. -/
def submitOrder (st : ExecState) (_side : ℕ) (_price quantity : ℚ)
    (resp : OrderResponse) : ExecResult × ExecState × ℕ :=
  if st.status ≠ .connected then
    ({ execResultInit with errMsg := "Not connected to exchange" }, st, 0)
  else if st.risk.maxOrderSize < quantity then
    ({ execResultInit with errMsg := "Order size exceeds maximum allowed" }, st, 0)
  else
    match resp with
    | .ok oid exQty rPrice sField =>
        let base : ExecResult :=
          { status := .success, orderId := oid, filledQty := exQty
            avgPrice := rPrice, errMsg := "" }
        let result :=
          match sField with
          | some .filled => { base with filledQty := quantity, avgPrice := rPrice }
          | some .partiallyFilled => { base with status := .partFilled, filledQty := exQty }
          | _ => base
        (result, { st with history := (oid, result) :: st.history }, 1)
    | .apiError _ msg => ({ execResultInit with errMsg := msg }, st, 1)
    | .invalid => ({ execResultInit with errMsg := "Invalid response from exchange" }, st, 1)
    | .parseFail what =>
        ({ execResultInit with errMsg := "Failed to parse response: " ++ what }, st, 1)

/-- Parse outcome of the GET /api/v3/account probe that `connect` sends:
`account` = object with an `accountType` field; `apiError` = object with a
`code` field; `otherJson` = well-formed JSON with neither; `malformed` =
`json::parse` threw. -/
inductive ProbeResponse
  | account
  | apiError (code : ℤ) (msg : String)
  | otherJson
  | malformed
  deriving Repr, DecidableEq

/-- Embedding of `OrderExecutor::connect` (order_executor.cpp): empty credentials fail
immediately with state ERROR and no request; otherwise the signed probe is
sent and only an `accountType`-carrying response yields `true` and state
CONNECTED, every other outcome yields `false` and state ERROR. -/
def connectImpl (st : ExecState) (resp : ProbeResponse) : Bool × ExecState × ℕ :=
  if st.apiKey = "" ∨ st.apiSecret = "" then
    (false, { st with status := .error }, 0)
  else
    match resp with
    | .account => (true, { st with status := .connected }, 1)
    | _ => (false, { st with status := .error }, 1)

/-- The duplicate `OrderExecutor::connect` in strategy_engine_impl.cpp
(lines 132-137): it stores CONNECTED and returns `true` unconditionally,
checking nothing and sending nothing. -/
def connectStub (st : ExecState) : Bool × ExecState × ℕ :=
  (true, { st with status := .connected }, 0)

/-! ### Feed parsers (market_data/websocket_client.cpp and rest_client.cpp)

JSON decoding is external; a side of a depth message is modelled as the
list of its array elements, each either a well-formed `[price, qty]` pair
(`some (p, q)`) or a malformed element (`none`, i.e. not an array of size
at least 2, which the code skips while still counting it). -/

/-- One side of a parsed depth message. -/
def SideMsg := List (Option (ℚ × ℚ))

/-- The count the parsers store: `(n < 20) ? n : 20`. -/
def capCount (n : ℕ) : ℕ := if n < 20 then n else 20

/-- Write one parsed side over the existing 20 level slots: slots below
the capped count receive the element's price/quantity when it is
well-formed (its timestamp byte is untouched), all other slots keep their
previous contents. -/
def writeSide (old : List PriceLevel) (msg : SideMsg) : List PriceLevel :=
  (List.range 20).map fun i =>
    if i < capCount msg.length then
      match msg.getD i none with
      | some pq =>
          { (old.getD i zeroLevel) with price := pq.1, quantity := pq.2 }
      | none => old.getD i zeroLevel
    else old.getD i zeroLevel

/-- The depth-stream parse in `websocket_write_callback`: the snapshot is
`memset` to zero, stamped with symbol and arrival time, and each side's
count is capped at 20 before the copy loop. -/
def wsParse (sym : Symbol) (now : ℕ) (bidMsg askMsg : SideMsg) : Orderbook :=
  { symbol := sym
    bids := writeSide (List.replicate 20 zeroLevel) bidMsg
    asks := writeSide (List.replicate 20 zeroLevel) askMsg
    bidCount := capCount bidMsg.length
    askCount := capCount askMsg.length
    timestamp := now }

/-- Embedding of the `rest_client_get_orderbook` parse: it writes counts, levels, symbol
and timestamp into the caller-provided `orderbook_t` (which it does not
clear first). -/
def restParse (ob0 : Orderbook) (sym : Symbol) (now : ℕ)
    (bidMsg askMsg : SideMsg) : Orderbook :=
  { symbol := sym
    bids := writeSide ob0.bids bidMsg
    asks := writeSide ob0.asks askMsg
    bidCount := capCount bidMsg.length
    askCount := capCount askMsg.length
    timestamp := now }

/-! ### Byte-order converters (utils/network_utils.h, network_converter.cpp)

`htonl`/`ntohl` are the libc 32-bit byte reversals (the build targets a
little-endian host, the case the header's `IS_LITTLE_ENDIAN` selects);
`hton64`/`ntoh64` assemble the two reversed 32-bit halves exactly as the
header does — the `|` of the two disjoint halves is written `+` here, and
the `(uint32_t)` casts are `% 2^32`.  Doubles travel as their 64-bit bit
pattern (the union reinterpretation), so every field is a word below
`2^64` in this unit. -/

/-- The 32-bit byte reversal: the effect of `htonl` (= `ntohl`) on a
little-endian host, for a word below `2^32`. -/
def bswap32 (x : ℕ) : ℕ :=
  (x % 256) * 16777216 + (x / 256 % 256) * 65536
    + (x / 65536 % 256) * 256 + (x / 16777216 % 256)

/-- Embedding of `hton64`: `htonl` of the high half or-ed with `htonl` of the low half shifted up 32 bits. -/
def hton64 (x : ℕ) : ℕ :=
  bswap32 (x / 4294967296 % 4294967296) + bswap32 (x % 4294967296) * 4294967296

/-- Embedding of `ntoh64`: same construction from `ntohl` (the identical function). -/
def ntoh64 (x : ℕ) : ℕ :=
  bswap32 (x / 4294967296 % 4294967296) + bswap32 (x % 4294967296) * 4294967296

/-- A level as it sits in memory for the converter: price and quantity as
64-bit IEEE bit patterns, timestamp a 64-bit integer. -/
structure LevelW where
  price : ℕ
  quantity : ℕ
  timestamp : ℕ
  deriving Repr, DecidableEq

/-- The all-zero level word record. -/
def zeroLevelW : LevelW := { price := 0, quantity := 0, timestamp := 0 }

/-- Struct `orderbook_t` at the word level (for the converter unit). -/
structure OrderbookW where
  symbol : Symbol
  bids : List LevelW
  asks : List LevelW
  bidCount : ℕ
  askCount : ℕ
  timestamp : ℕ
  deriving Repr, DecidableEq

/-- Struct `orderbook_net_t` (the 980-byte wire record) at the word level. -/
structure OrderbookNet where
  symbol : ℕ
  bidCount : ℕ
  askCount : ℕ
  timestamp : ℕ
  bids : List LevelW
  asks : List LevelW
  deriving Repr, DecidableEq

/-- Byte-order conversion of one level (all three fields through the
64-bit swap; the double fields are swapped as their bit patterns). -/
def swapLevel (l : LevelW) : LevelW :=
  { price := hton64 l.price, quantity := hton64 l.quantity
    timestamp := hton64 l.timestamp }

/-- Embedding of `orderbook_to_net`: the target is `memset` to zero, then the header
fields are converted and the `i < count && i < 20` copy loops run. -/
def orderbookToNet (l : OrderbookW) : OrderbookNet :=
  { symbol := l.symbol.idx
    bidCount := bswap32 (l.bidCount % 4294967296)
    askCount := bswap32 (l.askCount % 4294967296)
    timestamp := hton64 l.timestamp
    bids := (List.range 20).map fun i =>
      if i < l.bidCount ∧ i < 20 then swapLevel (l.bids.getD i zeroLevelW) else zeroLevelW
    asks := (List.range 20).map fun i =>
      if i < l.askCount ∧ i < 20 then swapLevel (l.asks.getD i zeroLevelW) else zeroLevelW }

/-- Byte-order conversion of one level back to host order (`ntoh64` /
`ntoh_double` on the three fields). -/
def unswapLevel (l : LevelW) : LevelW :=
  { price := ntoh64 l.price, quantity := ntoh64 l.quantity
    timestamp := ntoh64 l.timestamp }

/-- Embedding of `orderbook_from_net`: the target is `memset` to zero, the header
fields are converted back, and the copy loops are bounded by the
*converted* counts. -/
def orderbookFromNet (n : OrderbookNet) : OrderbookW :=
  let bc := bswap32 (n.bidCount % 4294967296)
  let ac := bswap32 (n.askCount % 4294967296)
  { symbol := Symbol.fromByte n.symbol
    bidCount := bc
    askCount := ac
    timestamp := ntoh64 n.timestamp
    bids := (List.range 20).map fun i =>
      if i < bc ∧ i < 20 then unswapLevel (n.bids.getD i zeroLevelW) else zeroLevelW
    asks := (List.range 20).map fun i =>
      if i < ac ∧ i < 20 then unswapLevel (n.asks.getD i zeroLevelW) else zeroLevelW }

/-! ### Request signing (execution/order_executor.cpp)

`OrderExecutor::hmac_sha256` delegates to OpenSSL's
`HMAC(EVP_sha256(), ...)` and renders the 32 digest bytes as two
lowercase hex digits each.  OpenSSL is external to the repository, so
HMAC-SHA256 (FIPS 180-4 / RFC 2104, the function that call computes) is
implemented here over byte lists; the hex rendering is translated from
the source's formatting loop. -/

/-- The 32-bit mask (`uint32_t` truncation). -/
def M32 : ℕ := 4294967295

/-- The 32-bit right rotation. -/
def rotr32 (n x : ℕ) : ℕ := ((x >>> n) ||| (x <<< (32 - n))) &&& M32

/-- SHA-256 `Ch`. -/
def ch32 (x y z : ℕ) : ℕ := (x &&& y) ^^^ ((x ^^^ M32) &&& z)

/-- SHA-256 `Maj`. -/
def maj32 (x y z : ℕ) : ℕ := (x &&& y) ^^^ (x &&& z) ^^^ (y &&& z)

/-- SHA-256 `Σ0`. -/
def sumA0 (x : ℕ) : ℕ := rotr32 2 x ^^^ rotr32 13 x ^^^ rotr32 22 x

/-- SHA-256 `Σ1`. -/
def sumA1 (x : ℕ) : ℕ := rotr32 6 x ^^^ rotr32 11 x ^^^ rotr32 25 x

/-- SHA-256 `σ0`. -/
def sigB0 (x : ℕ) : ℕ := rotr32 7 x ^^^ rotr32 18 x ^^^ (x >>> 3)

/-- SHA-256 `σ1`. -/
def sigB1 (x : ℕ) : ℕ := rotr32 17 x ^^^ rotr32 19 x ^^^ (x >>> 10)

/-- The SHA-256 round constants. -/
def K256 : List ℕ :=
  [1116352408, 1899447441, 3049323471, 3921009573, 961987163, 1508970993,
   2453635748, 2870763221, 3624381080, 310598401, 607225278, 1426881987,
   1925078388, 2162078206, 2614888103, 3248222580, 3835390401, 4022224774,
   264347078, 604807628, 770255983, 1249150122, 1555081692, 1996064986,
   2554220882, 2821834349, 2952996808, 3210313671, 3336571891, 3584528711,
   113926993, 338241895, 666307205, 773529912, 1294757372, 1396182291,
   1695183700, 1986661051, 2177026350, 2456956037, 2730485921, 2820302411,
   3259730800, 3345764771, 3516065817, 3600352804, 4094571909, 275423344,
   430227734, 506948616, 659060556, 883997877, 958139571, 1322822218,
   1537002063, 1747873779, 1955562222, 2024104815, 2227730452, 2361852424,
   2428436474, 2756734187, 3204031479, 3329325298]

/-- The SHA-256 initial hash value. -/
def H256 : List ℕ :=
  [1779033703, 3144134277, 1013904242, 2773480762,
   1359893119, 2600822924, 528734635, 1541459225]

/-- Big-endian byte rendering of `x` on `n` bytes. -/
def beBytes (n x : ℕ) : List ℕ := (List.range n).map fun i => x / 256 ^ (n - 1 - i) % 256

/-- SHA-256 padding: `0x80`, zeros to 56 mod 64, 64-bit bit length. -/
def padMsg (msg : List ℕ) : List ℕ :=
  let L := msg.length
  msg ++ 128 :: List.replicate ((64 - (L + 9) % 64) % 64) 0 ++ beBytes 8 (8 * L)

/-- The 16 big-endian 32-bit words of one 64-byte block. -/
def toWords (bytes : List ℕ) : List ℕ :=
  (List.range 16).map fun i =>
    bytes.getD (4 * i) 0 * 16777216 + bytes.getD (4 * i + 1) 0 * 65536
      + bytes.getD (4 * i + 2) 0 * 256 + bytes.getD (4 * i + 3) 0

/-- One message-schedule extension step on the reversed schedule. -/
def schedStep (rw : List ℕ) : List ℕ :=
  ((sigB1 (rw.getD 1 0) + rw.getD 6 0 + sigB0 (rw.getD 14 0) + rw.getD 15 0) &&& M32) :: rw

/-- The 64-word message schedule of one block. -/
def schedule (w16 : List ℕ) : List ℕ :=
  ((List.range 48).foldl (fun acc _ => schedStep acc) w16.reverse).reverse

/-- The eight 32-bit working variables of the compression loop. -/
structure H8 where
  a : ℕ
  b : ℕ
  c : ℕ
  d : ℕ
  e : ℕ
  f : ℕ
  g : ℕ
  hh : ℕ

/-- Load the working variables from the chaining value. -/
def h8OfList (l : List ℕ) : H8 :=
  { a := l.getD 0 0, b := l.getD 1 0, c := l.getD 2 0, d := l.getD 3 0
    e := l.getD 4 0, f := l.getD 5 0, g := l.getD 6 0, hh := l.getD 7 0 }

/-- One SHA-256 round. -/
def compressStep (s : H8) (kw : ℕ × ℕ) : H8 :=
  let t1 := (s.hh + sumA1 s.e + ch32 s.e s.f s.g + kw.1 + kw.2) &&& M32
  let t2 := (sumA0 s.a + maj32 s.a s.b s.c) &&& M32
  { a := (t1 + t2) &&& M32, b := s.a, c := s.b, d := s.c
    e := (s.d + t1) &&& M32, f := s.e, g := s.f, hh := s.g }

/-- Compression of one 64-byte block into the chaining value. -/
def compress (hs : List ℕ) (block : List ℕ) : List ℕ :=
  let w := schedule (toWords block)
  let s := (K256.zip w).foldl compressStep (h8OfList hs)
  [(hs.getD 0 0 + s.a) &&& M32, (hs.getD 1 0 + s.b) &&& M32,
   (hs.getD 2 0 + s.c) &&& M32, (hs.getD 3 0 + s.d) &&& M32,
   (hs.getD 4 0 + s.e) &&& M32, (hs.getD 5 0 + s.f) &&& M32,
   (hs.getD 6 0 + s.g) &&& M32, (hs.getD 7 0 + s.hh) &&& M32]

/-- Split into 64-byte blocks (fuel-structured so that proofs reduce;
the fuel `l.length` always suffices). -/
def chunks64Aux : ℕ → List ℕ → List (List ℕ)
  | 0, _ => []
  | _ + 1, [] => []
  | fuel + 1, b :: rest => (b :: rest).take 64 :: chunks64Aux fuel ((b :: rest).drop 64)

/-- Split a byte list into 64-byte blocks. -/
def chunks64 (l : List ℕ) : List (List ℕ) := chunks64Aux l.length l

/-- SHA-256 of a byte list. -/
def sha256Bytes (msg : List ℕ) : List ℕ :=
  (((chunks64 (padMsg msg)).foldl compress H256).map (beBytes 4)).flatten

/-- HMAC-SHA256 (RFC 2104) of a byte-list key and message. -/
def hmacSha256 (key msg : List ℕ) : List ℕ :=
  let k0 := if 64 < key.length then sha256Bytes key else key
  let kp := k0 ++ List.replicate (64 - k0.length) 0
  sha256Bytes ((kp.map fun b => b ^^^ 92) ++ sha256Bytes ((kp.map fun b => b ^^^ 54) ++ msg))

/-- A lowercase hex digit, as `std::hex` renders it. -/
def hexDigit (n : ℕ) : Char := Char.ofNat (if n < 10 then 48 + n else 87 + n)

/-- The source's digest-formatting loop: each byte as two lowercase hex
digits, zero-padded. -/
def bytesToHex (bs : List ℕ) : String :=
  String.mk (bs.foldr (fun b acc => hexDigit (b / 16) :: hexDigit (b % 16) :: acc) [])

/-- Bytes of an ASCII string (keys, query strings). -/
def strBytes (s : String) : List ℕ := s.data.map Char.toNat

/-- Embedding of `OrderExecutor::hmac_sha256(key, data)`: the lowercase-hex
HMAC-SHA256 of `data` keyed by `key`. -/
def hmacSha256Hex (key data : String) : String :=
  bytesToHex (hmacSha256 (strBytes key) (strBytes data))

/-- The string `send_signed_request` signs: the caller's query string
with `timestamp=<ms>` appended as the last parameter (no leading `&` when
the query was empty). -/
def signedQuery (query : String) (tsMs : ℕ) : String :=
  (if query = "" then "" else query ++ "&") ++ "timestamp=" ++ toString tsMs

/-- The full query `send_signed_request` puts on the URL: the signed
string followed by the `signature` parameter, which is the lowercase-hex
HMAC-SHA256 of exactly that string keyed by the account secret. -/
def fullSignedQuery (secret query : String) (tsMs : ℕ) : String :=
  signedQuery query tsMs ++ "&signature=" ++ hmacSha256Hex secret (signedQuery query tsMs)

/-! ## Theorems -/

/-- Applying updates whose symbols differ from `s` does not change what
`getOrderbook` returns for `s`. -/
lemma applyUpdates_getOrderbook_of_ne (rest : List Orderbook) :
    ∀ (b0 b1 b2 : Orderbook) (s : Symbol),
      (∀ ob ∈ rest, ob.symbol ≠ s) →
      getOrderbook (applyUpdates ⟨[b0, b1, b2]⟩ rest) s = getOrderbook ⟨[b0, b1, b2]⟩ s := by
  induction rest with
  | nil => intro b0 b1 b2 s _; rfl
  | cons ob rest ih =>
      intro b0 b1 b2 s h
      have hne : ob.symbol ≠ s := h ob (by simp)
      have hrest : ∀ o ∈ rest, o.symbol ≠ s := fun o ho => h o (by simp [ho])
      have hstep : applyUpdates ⟨[b0, b1, b2]⟩ (ob :: rest)
          = applyUpdates (updateOrderbook ⟨[b0, b1, b2]⟩ ob) rest := rfl
      rw [hstep]
      cases hOb : ob.symbol <;> rw [hOb] at hne <;>
        simp only [updateOrderbook, Symbol.idx, hOb] <;>
        cases s <;> simp_all <;> rfl

/-- Claim C1: if the gateway is not CONNECTED or the quantity exceeds
`risk.max_order_size`, `submitOrder` returns a FAILED result, sends no
signed request, and leaves the order history (indeed the whole gateway
state) unchanged. -/
theorem submitOrder_local_reject (st : ExecState) (side : ℕ) (price quantity : ℚ)
    (resp : OrderResponse)
    (h : st.status ≠ .connected ∨ st.risk.maxOrderSize < quantity) :
    (submitOrder st side price quantity resp).1.status = .failed ∧
    (submitOrder st side price quantity resp).2.1 = st ∧
    (submitOrder st side price quantity resp).2.2 = 0 := by
  rcases h with h | h
  · simp [submitOrder, execResultInit, h]
  · by_cases hc : st.status = .connected
    · simp [submitOrder, execResultInit, hc, h, not_lt.mpr (le_of_lt h)]
    · simp [submitOrder, execResultInit, hc]

/-- Witness for C1: a concrete oversized order against a connected
gateway is rejected locally. -/
theorem submitOrder_local_reject_witness :
    (submitOrder ⟨.connected, ⟨0, 0, 5, 0⟩, "k", "s", []⟩ 0 0 7 .invalid).1.status = .failed ∧
    (submitOrder ⟨.connected, ⟨0, 0, 5, 0⟩, "k", "s", []⟩ 0 0 7 .invalid).2.1
      = ⟨.connected, ⟨0, 0, 5, 0⟩, "k", "s", []⟩ ∧
    (submitOrder ⟨.connected, ⟨0, 0, 5, 0⟩, "k", "s", []⟩ 0 0 7 .invalid).2.2 = 0 :=
  submitOrder_local_reject _ 0 0 7 .invalid (Or.inr (by norm_num))

/-- Counterexample for C2: on a freshly constructed manager (construction
time 5 ms) the snapshot returned for a never-updated symbol is *not* the
all-zero snapshot — its timestamp is the construction time. -/
theorem getOrderbook_fresh_not_zero :
    getOrderbook (mgrInit 5) .btcUsdt ≠ specEmptySnapshot ∧
    (getOrderbook (mgrInit 5) .btcUsdt).timestamp = 5 ∧
    (getOrderbook (mgrInit 5) .btcUsdt).bidCount = 0 ∧
    (getOrderbook (mgrInit 5) .btcUsdt).askCount = 0 := by
  refine ⟨fun hEq => ?_, rfl, rfl, rfl⟩
  have h5 : (getOrderbook (mgrInit 5) .btcUsdt).timestamp = 5 := rfl
  rw [hEq] at h5
  exact absurd h5 (by decide)

/-- Claim C2 (amended): after `updateOrderbook s`, `getOrderbook s.symbol`
returns `s` until an update carrying the same symbol arrives; a
never-updated symbol reads back the zeroed snapshot stamped with the
manager's construction time `t0` (not the all-zero snapshot). -/
theorem orderbook_read_after_write (m : MgrState) (hm : m.books.length = 3)
    (s : Orderbook) (rest : List Orderbook)
    (hrest : ∀ ob ∈ rest, ob.symbol ≠ s.symbol) :
    getOrderbook (applyUpdates (updateOrderbook m s) rest) s.symbol = s ∧
    (∀ t0 sym, getOrderbook (mgrInit t0) sym = { obZeroed with timestamp := t0 }) := by
  obtain ⟨books⟩ := m
  simp only at hm
  obtain ⟨b0, b1, b2, rfl⟩ := List.length_eq_three.mp hm
  refine ⟨?_, fun t0 sym => by cases sym <;> rfl⟩
  cases hs : s.symbol <;> rw [hs] at hrest <;>
    simp only [updateOrderbook, Symbol.idx, hs, List.length_cons, List.length_nil] <;>
    norm_num <;>
    rw [applyUpdates_getOrderbook_of_ne rest _ _ _ _ hrest] <;>
    simp [getOrderbook, Symbol.idx]

/-- Witness for C2: one concrete update followed by an update of a
different symbol still reads back the first snapshot. -/
theorem orderbook_read_after_write_witness :
    getOrderbook
      (applyUpdates
        (updateOrderbook (mgrInit 0) { obZeroed with symbol := .ethUsdt, timestamp := 77 })
        [{ obZeroed with symbol := .btcUsdt, timestamp := 88 }])
      Symbol.ethUsdt = { obZeroed with symbol := .ethUsdt, timestamp := 77 } ∧
    getOrderbook (mgrInit 9) .btcEth = { obZeroed with timestamp := 9 } := by
  have h := orderbook_read_after_write (mgrInit 0) rfl
    { obZeroed with symbol := .ethUsdt, timestamp := 77 }
    [{ obZeroed with symbol := .btcUsdt, timestamp := 88 }] (by decide)
  exact ⟨h.1, h.2 9 .btcEth⟩

/-- Counterexample for C7: the duplicate `OrderExecutor::connect` of
strategy_engine_impl.cpp returns `true` and stores CONNECTED even though
both credentials are empty. -/
theorem connectStub_empty_credentials :
    (connectStub ⟨.idle, ⟨0, 0, 0, 0⟩, "", "", []⟩).1 = true ∧
    (connectStub ⟨.idle, ⟨0, 0, 0, 0⟩, "", "", []⟩).2.1.status = .connected :=
  ⟨rfl, rfl⟩

/-- Claim C7 (amended): for the full gateway (order_executor.cpp),
`connect` with an empty key or secret returns `false`, sets state ERROR
and sends nothing; with non-empty credentials it returns `true` with
state CONNECTED exactly when the probe response carries account data, and
otherwise returns `false` with state ERROR. -/
theorem connectImpl_spec (st : ExecState) (resp : ProbeResponse) :
    ((st.apiKey = "" ∨ st.apiSecret = "") →
      connectImpl st resp = (false, { st with status := .error }, 0)) ∧
    (st.apiKey ≠ "" → st.apiSecret ≠ "" →
      (((connectImpl st resp).1 = true ∧ (connectImpl st resp).2.1.status = .connected)
          ↔ resp = .account) ∧
      (resp ≠ .account →
        (connectImpl st resp).1 = false ∧ (connectImpl st resp).2.1.status = .error)) := by
  constructor
  · intro h
    simp [connectImpl, h]
  · intro h1 h2
    have hno : ¬(st.apiKey = "" ∨ st.apiSecret = "") := by tauto
    cases resp <;> simp [connectImpl, hno]

/-- Witness for C7: empty-credential rejection and a successful probe,
both at concrete states. -/
theorem connectImpl_spec_witness :
    connectImpl ⟨.idle, ⟨0, 0, 0, 0⟩, "", "s", []⟩ .malformed
      = (false, ⟨.error, ⟨0, 0, 0, 0⟩, "", "s", []⟩, 0) ∧
    (connectImpl ⟨.idle, ⟨0, 0, 0, 0⟩, "k", "s", []⟩ .account).1 = true ∧
    (connectImpl ⟨.idle, ⟨0, 0, 0, 0⟩, "k", "s", []⟩ .account).2.1.status = .connected := by
  refine ⟨(connectImpl_spec _ .malformed).1 (Or.inl rfl), ?_⟩
  exact ((connectImpl_spec ⟨.idle, ⟨0, 0, 0, 0⟩, "k", "s", []⟩ .account).2
    (by decide) (by decide)).1.mpr rfl

/-- Claim C8: both feed parsers cap each side's count at 20 and produce
only the 20 level slots (levels beyond 20 in the message are never
written anywhere), and the store keeps the `≤ 20` invariant when fed such
snapshots. -/
theorem parsers_cap_twenty (sym : Symbol) (now : ℕ) (bidMsg askMsg : SideMsg)
    (ob0 : Orderbook) (m : MgrState) (s : Orderbook)
    (hm : ∀ b ∈ m.books, b.bidCount ≤ 20 ∧ b.askCount ≤ 20)
    (hs : s.bidCount ≤ 20 ∧ s.askCount ≤ 20) :
    (wsParse sym now bidMsg askMsg).bidCount = capCount bidMsg.length ∧
    (wsParse sym now bidMsg askMsg).bidCount ≤ 20 ∧
    (wsParse sym now bidMsg askMsg).askCount ≤ 20 ∧
    (wsParse sym now bidMsg askMsg).bids.length = 20 ∧
    (wsParse sym now bidMsg askMsg).asks.length = 20 ∧
    (restParse ob0 sym now bidMsg askMsg).bidCount ≤ 20 ∧
    (restParse ob0 sym now bidMsg askMsg).askCount ≤ 20 ∧
    (∀ b ∈ (updateOrderbook m s).books, b.bidCount ≤ 20 ∧ b.askCount ≤ 20) := by
  have hcap : ∀ n, capCount n ≤ 20 := by
    intro n; unfold capCount; split <;> omega
  refine ⟨rfl, hcap _, hcap _, ?_, ?_, hcap _, hcap _, ?_⟩
  · simp [wsParse, writeSide]
  · simp [wsParse, writeSide]
  · intro b hb
    unfold updateOrderbook at hb
    split at hb
    · rcases List.mem_or_eq_of_mem_set hb with h | h
      · exact hm b h
      · exact h ▸ hs
    · exact hm b hb

/-- Witness for C8: a 25-level bid message is capped at 20, and the store
invariant survives a concrete update. -/
theorem parsers_cap_twenty_witness :
    (wsParse .btcUsdt 1 (List.replicate 25 (some (3, 4))) []).bidCount
      = capCount (List.replicate 25 (some ((3 : ℚ), (4 : ℚ)))).length ∧
    (wsParse .btcUsdt 1 (List.replicate 25 (some (3, 4))) []).bidCount ≤ 20 ∧
    (wsParse .btcUsdt 1 (List.replicate 25 (some (3, 4))) []).askCount ≤ 20 ∧
    (wsParse .btcUsdt 1 (List.replicate 25 (some (3, 4))) []).bids.length = 20 ∧
    (wsParse .btcUsdt 1 (List.replicate 25 (some (3, 4))) []).asks.length = 20 ∧
    (restParse obZeroed .btcUsdt 1 (List.replicate 25 (some (3, 4))) []).bidCount ≤ 20 ∧
    (restParse obZeroed .btcUsdt 1 (List.replicate 25 (some (3, 4))) []).askCount ≤ 20 ∧
    (∀ b ∈ (updateOrderbook (mgrInit 0) obZeroed).books,
      b.bidCount ≤ 20 ∧ b.askCount ≤ 20) :=
  parsers_cap_twenty .btcUsdt 1 (List.replicate 25 (some (3, 4))) [] obZeroed
    (mgrInit 0) obZeroed (by decide) (by decide)

/-- Lemma: `bswap32` maps words below `2^32` to words below `2^32`. -/
lemma bswap32_lt (x : ℕ) : bswap32 x < 4294967296 := by unfold bswap32; omega

/-- Lemma: `bswap32` on an explicit byte decomposition. -/
lemma bswap32_bytes (b0 b1 b2 b3 : ℕ) (h0 : b0 < 256) (h1 : b1 < 256)
    (h2 : b2 < 256) (h3 : b3 < 256) :
    bswap32 (b0 + 256 * b1 + 65536 * b2 + 16777216 * b3)
      = b3 + 256 * b2 + 65536 * b1 + 16777216 * b0 := by
  unfold bswap32
  have e1 : (b0 + 256 * b1 + 65536 * b2 + 16777216 * b3) % 256 = b0 := by omega
  have e2 : (b0 + 256 * b1 + 65536 * b2 + 16777216 * b3) / 256 % 256 = b1 := by omega
  have e3 : (b0 + 256 * b1 + 65536 * b2 + 16777216 * b3) / 65536 % 256 = b2 := by omega
  have e4 : (b0 + 256 * b1 + 65536 * b2 + 16777216 * b3) / 16777216 % 256 = b3 := by omega
  rw [e1, e2, e3, e4]
  ring

/-- The libc 32-bit byte swap is an involution on 32-bit words. -/
lemma bswap32_invol (x : ℕ) (hx : x < 4294967296) : bswap32 (bswap32 x) = x := by
  obtain ⟨b0, b1, b2, b3, h0, h1, h2, h3, rfl⟩ :
      ∃ b0 b1 b2 b3, b0 < 256 ∧ b1 < 256 ∧ b2 < 256 ∧ b3 < 256 ∧
        x = b0 + 256 * b1 + 65536 * b2 + 16777216 * b3 :=
    ⟨x % 256, x / 256 % 256, x / 65536 % 256, x / 16777216,
      by omega, by omega, by omega, by omega, by omega⟩
  rw [bswap32_bytes b0 b1 b2 b3 h0 h1 h2 h3, bswap32_bytes b3 b2 b1 b0 h3 h2 h1 h0]

/-- Lemma: `ntoh64 (hton64 x) = x` on 64-bit words: the two-half byte swaps
compose to the identity. -/
lemma ntoh64_hton64 (x : ℕ) (hx : x < 18446744073709551616) : ntoh64 (hton64 x) = x := by
  unfold hton64 ntoh64
  have hhi : x / 4294967296 % 4294967296 = x / 4294967296 := Nat.mod_eq_of_lt (by omega)
  rw [hhi]
  have hA : bswap32 (x / 4294967296) < 4294967296 := bswap32_lt _
  have hB : bswap32 (x % 4294967296) < 4294967296 := bswap32_lt _
  have hq : (bswap32 (x / 4294967296) + bswap32 (x % 4294967296) * 4294967296) / 4294967296
      % 4294967296 = bswap32 (x % 4294967296) := by omega
  have hr : (bswap32 (x / 4294967296) + bswap32 (x % 4294967296) * 4294967296) % 4294967296
      = bswap32 (x / 4294967296) := by omega
  rw [hq, hr, bswap32_invol _ (Nat.mod_lt _ (by norm_num)), bswap32_invol _ (by omega)]
  omega

/-- A small (≤ 32-bit) count survives the `hton32`/`ntoh32` round trip
with the `uint32_t` truncations. -/
lemma bswap32_count_roundtrip (c : ℕ) (h : c < 4294967296) :
    bswap32 (bswap32 (c % 4294967296) % 4294967296) = c := by
  rw [Nat.mod_eq_of_lt h, Nat.mod_eq_of_lt (bswap32_lt _), bswap32_invol _ h]

/-- Converting one level to network order and back restores it, field
bounds permitting. -/
lemma unswapLevel_swapLevel (l : LevelW)
    (hp : l.price < 18446744073709551616) (hq : l.quantity < 18446744073709551616)
    (ht : l.timestamp < 18446744073709551616) :
    unswapLevel (swapLevel l) = l := by
  cases l
  simp only [swapLevel, unswapLevel]
  simp_all [ntoh64_hton64]

/-- Lemma: `getD` on a map over `List.range`. -/
lemma getD_map_range {α : Type} (g : ℕ → α) (i n : ℕ) (hi : i < n) (d : α) :
    ((List.range n).map g).getD i d = g i := by
  rw [List.getD_eq_getElem _ _ (by simpa using hi)]
  simp

/-- Claim C10: for a well-formed orderbook (counts at most 20, all level
slots at or beyond the counts zeroed, every field a 64-bit word, the two
level arrays of size 20), `orderbook_from_net ∘ orderbook_to_net` is the
identity: symbol, counts, timestamps and every populated level are
restored exactly. -/
theorem orderbook_net_roundtrip (ob : OrderbookW)
    (hbc : ob.bidCount ≤ 20) (hac : ob.askCount ≤ 20)
    (hts : ob.timestamp < 18446744073709551616)
    (hbl : ob.bids.length = 20) (hal : ob.asks.length = 20)
    (hbf : ∀ l ∈ ob.bids, l.price < 18446744073709551616 ∧
      l.quantity < 18446744073709551616 ∧ l.timestamp < 18446744073709551616)
    (haf : ∀ l ∈ ob.asks, l.price < 18446744073709551616 ∧
      l.quantity < 18446744073709551616 ∧ l.timestamp < 18446744073709551616)
    (hbz : ∀ i ∈ List.range 20, ob.bidCount ≤ i → ob.bids.getD i zeroLevelW = zeroLevelW)
    (haz : ∀ i ∈ List.range 20, ob.askCount ≤ i → ob.asks.getD i zeroLevelW = zeroLevelW) :
    orderbookFromNet (orderbookToNet ob) = ob := by
  have hbc32 : ob.bidCount < 4294967296 := by omega
  have hac32 : ob.askCount < 4294967296 := by omega
  have hsideGen : ∀ (side : List LevelW) (count : ℕ), count ≤ 20 →
      side.length = 20 →
      (∀ l ∈ side, l.price < 18446744073709551616 ∧
        l.quantity < 18446744073709551616 ∧ l.timestamp < 18446744073709551616) →
      (∀ i ∈ List.range 20, count ≤ i → side.getD i zeroLevelW = zeroLevelW) →
      ((List.range 20).map fun i =>
        if i < count ∧ i < 20 then
          unswapLevel ((((List.range 20).map fun j =>
            if j < count ∧ j < 20 then swapLevel (side.getD j zeroLevelW)
            else zeroLevelW)).getD i zeroLevelW)
        else zeroLevelW) = side := by
    intro side count hcount hlen hf hz
    apply List.ext_getElem
    · simp [hlen]
    · intro i h1 h2
      have hi20 : i < 20 := by simpa using h1
      rw [List.getElem_map, List.getElem_range]
      by_cases hic : i < count
      · have hin : (((List.range 20).map fun j =>
            if j < count ∧ j < 20 then swapLevel (side.getD j zeroLevelW)
            else zeroLevelW)).getD i zeroLevelW
            = swapLevel (side.getD i zeroLevelW) := by
          rw [getD_map_range _ i 20 hi20]
          simp [hic, hi20]
        have hmem : side.getD i zeroLevelW ∈ side := by
          rw [List.getD_eq_getElem _ _ (by omega)]
          exact List.getElem_mem _
        obtain ⟨hp, hq, ht⟩ := hf _ hmem
        simp only [hic, hi20, and_self, if_true, hin,
          unswapLevel_swapLevel _ hp hq ht]
        rw [List.getD_eq_getElem _ _ (by omega)]
      · have : ¬(i < count ∧ i < 20) := by tauto
        simp only [this, if_false]
        have hz' : side.getD i zeroLevelW = zeroLevelW :=
          hz i (by simpa using hi20) (by omega)
        rw [List.getD_eq_getElem _ _ (by omega)] at hz'
        exact hz'.symm
  unfold orderbookFromNet orderbookToNet
  simp only
  rw [bswap32_count_roundtrip ob.bidCount hbc32, bswap32_count_roundtrip ob.askCount hac32,
    ntoh64_hton64 _ hts]
  congr 1
  · cases ob.symbol <;> rfl
  · exact hsideGen ob.bids ob.bidCount hbc hbl hbf hbz
  · exact hsideGen ob.asks ob.askCount hac hal haf haz

/-- Witness for C10: a concrete one-bid-level orderbook survives the
round trip. -/
theorem orderbook_net_roundtrip_witness :
    orderbookFromNet (orderbookToNet
      { symbol := .ethUsdt
        bids := { price := 4631530004285489152, quantity := 4607182418800017408,
                  timestamp := 1700000000000 } :: List.replicate 19 zeroLevelW
        asks := List.replicate 20 zeroLevelW
        bidCount := 1
        askCount := 0
        timestamp := 1700000000001 })
      = { symbol := .ethUsdt
          bids := { price := 4631530004285489152, quantity := 4607182418800017408,
                    timestamp := 1700000000000 } :: List.replicate 19 zeroLevelW
          asks := List.replicate 20 zeroLevelW
          bidCount := 1
          askCount := 0
          timestamp := 1700000000001 } :=
  orderbook_net_roundtrip _ (by decide) (by decide) (by decide) (by decide) (by decide)
    (by decide) (by decide) (by decide) (by decide)

/-- The last element of a list, from `getLast?`, is a member. -/
lemma mem_of_getLast?Q {l : List ℚ} {a : ℚ} (h : l.getLast? = some a) : a ∈ l := by
  cases l with
  | nil => simp at h
  | cons b t =>
      rw [List.getLast?_eq_getLast _ (by simp), Option.some_inj] at h
      exact h ▸ List.getLast_mem _

/-- The pushed price is the last element of the updated history. -/
lemma pushPrice_getLast? (h : List ℚ) (p : ℚ) : (pushPrice h p).getLast? = some p := by
  unfold pushPrice
  show (if 100 < (h ++ [p]).length then (h ++ [p]).tail else h ++ [p]).getLast? = some p
  by_cases hc : 100 < (h ++ [p]).length
  · rw [if_pos hc]
    cases h with
    | nil => simp at hc
    | cons a t => simp [List.getLast?_concat]
  · rw [if_neg hc]
    exact List.getLast?_concat h

/-- The window of the most recent `n` samples has exactly `n` samples
once the history is long enough. -/
lemma lastN_length (l : List ℚ) (n : ℕ) (h : n ≤ l.length) : (lastN l n).length = n := by
  simp only [lastN, List.length_drop]
  omega

/-- A nonempty most-recent window ends at the history's last element. -/
lemma lastN_getLast? (l : List ℚ) (n : ℕ) (h1 : 1 ≤ n) (h2 : n ≤ l.length) :
    (lastN l n).getLast? = l.getLast? := by
  have hne : l.drop (l.length - n) ≠ [] := by
    intro hnil
    have hl : (l.drop (l.length - n)).length = n := by
      rw [List.length_drop]; omega
    rw [hnil] at hl
    simp at hl
    omega
  unfold lastN
  conv_rhs => rw [← List.take_append_drop (l.length - n) l]
  rw [List.getLast?_append_of_ne_nil _ hne]

/-- Sum of a constant list. -/
lemma sum_const_listQ (l : List ℚ) (v : ℚ) (h : ∀ x ∈ l, x = v) :
    l.sum = l.length * v := by
  induction l with
  | nil => simp
  | cons a t ih =>
      simp only [List.sum_cons, List.length_cons]
      rw [h a (by simp), ih (fun x hx => h x (by simp [hx]))]
      push_cast
      ring

/-- Counterexample for C3: with a constant feed the code *does* reach the
z-score division with a zero standard deviation — the z-score is the NaN
`0/0`, not a guarded early return (the signal is NONE only because both
NaN comparisons are false). -/
theorem meanRev_unguarded_nan :
    meanRevZ (fun _ => 0) ⟨2, 2⟩
      (pushPrice [100]
        (obMid { obZeroed with
          bids := { price := 100, quantity := 1, timestamp := 0 } :: List.replicate 19 zeroLevel
          asks := { price := 100, quantity := 1, timestamp := 0 } :: List.replicate 19 zeroLevel
          bidCount := 1, askCount := 1 })) = FVal.nan ∧
    (meanRevStep (fun _ => 0) ⟨2, 2⟩ .running [100]
      { obZeroed with
        bids := { price := 100, quantity := 1, timestamp := 0 } :: List.replicate 19 zeroLevel
        asks := { price := 100, quantity := 1, timestamp := 0 } :: List.replicate 19 zeroLevel
        bidCount := 1, askCount := 1 }).1 = .sigNone := by
  constructor
  · simp only [meanRevZ, meanRevStep, pushPrice, obMid, lastN, obZeroed, zeroLevel, fdiv]
    norm_num
  · simp only [meanRevZ, meanRevStep, pushPrice, obMid, lastN, obZeroed, zeroLevel,
      fdiv, fgt, flt]
    norm_num

/-- Claim C3 (amended): whenever the most recent `lookback` samples after
the push are all equal (zero population standard deviation) the signal is
NONE for any square-root model with `sqrt 0 = 0` — but not via a guard:
the z-score is computed as the NaN `0/0` and both threshold comparisons
fail. -/
theorem meanRev_constant_none (sqrtFn : ℚ → ℚ) (hsq : sqrtFn 0 = 0)
    (P : MRParams) (hlb : 1 ≤ P.lookback) (st : StrategyStatus)
    (h : List ℚ) (ob : Orderbook)
    (hconst : ∀ x ∈ lastN (pushPrice h (obMid ob)) P.lookback,
      ∀ y ∈ lastN (pushPrice h (obMid ob)) P.lookback, x = y) :
    (meanRevStep sqrtFn P st h ob).1 = .sigNone := by
  unfold meanRevStep
  by_cases hst : st ≠ StrategyStatus.running
  · rw [if_pos hst]
  · rw [if_neg hst]
    by_cases hlen : (pushPrice h (obMid ob)).length < P.lookback
    · rw [if_pos hlen]
    · rw [if_neg hlen]
      push_neg at hlen
      have hwlen : (lastN (pushPrice h (obMid ob)) P.lookback).length = P.lookback :=
        lastN_length _ _ hlen
      have hlast : (pushPrice h (obMid ob)).getLast? = some (obMid ob) :=
        pushPrice_getLast? h _
      have hwin : (lastN (pushPrice h (obMid ob)) P.lookback).getLast? = some (obMid ob) := by
        rw [lastN_getLast? _ _ hlb hlen]; exact hlast
      have hmem : obMid ob ∈ lastN (pushPrice h (obMid ob)) P.lookback :=
        mem_of_getLast?Q hwin
      have hall : ∀ x ∈ lastN (pushPrice h (obMid ob)) P.lookback, x = obMid ob :=
        fun x hx => hconst x hx _ hmem
      have hlbQ : (P.lookback : ℚ) ≠ 0 := Nat.cast_ne_zero.mpr (by omega)
      have hmean : (lastN (pushPrice h (obMid ob)) P.lookback).sum / (P.lookback : ℚ)
          = obMid ob := by
        rw [sum_const_listQ _ _ hall, hwlen, mul_comm, mul_div_assoc, div_self hlbQ, mul_one]
      have hvar : ((lastN (pushPrice h (obMid ob)) P.lookback).map
          fun x => (x - obMid ob) * (x - obMid ob)).sum = 0 := by
        apply List.sum_eq_zero
        intro y hy
        rw [List.mem_map] at hy
        obtain ⟨x, hx, rfl⟩ := hy
        rw [hall x hx]
        ring
      have hz : meanRevZ sqrtFn P (pushPrice h (obMid ob)) = .nan := by
        simp only [meanRevZ, hmean, hvar, zero_div, hsq, hlast, Option.getD_some, sub_self]
        simp [fdiv]
      rw [hz]
      simp [fgt, flt]

/-- Witness for C3: a concrete constant feed yields NONE. -/
theorem meanRev_constant_none_witness :
    (meanRevStep (fun q => q) ⟨1, 2⟩ .running [] obZeroed).1 = .sigNone :=
  meanRev_constant_none (fun q => q) rfl ⟨1, 2⟩ (by norm_num) .running [] obZeroed
    (by
      intro x hx y hy
      simp [pushPrice, lastN] at hx hy
      rw [hx, hy])

/-- While RUNNING, mean-reversion always stores the pushed history,
whatever the snapshot contents. -/
lemma meanRevStep_hist (sqrtFn : ℚ → ℚ) (P : MRParams) (h : List ℚ) (ob : Orderbook) :
    (meanRevStep sqrtFn P .running h ob).2 = pushPrice h (obMid ob) := by
  simp only [meanRevStep]
  rw [if_neg (by simp)]
  split
  · rfl
  · split
    · rfl
    · split <;> rfl

/-- While RUNNING, momentum always stores the pushed history. -/
lemma momentumStep_hist (P : MomParams) (h : List ℚ) (ob : Orderbook) :
    (momentumStep P .running h ob).2 = pushPrice h (obMid ob) := by
  simp only [momentumStep]
  rw [if_neg (by simp)]
  split
  · rfl
  · split
    · rfl
    · split <;> rfl

/-- While RUNNING, RSI always stores the pushed history. -/
lemma rsiStep_hist (P : RsiParams) (h : List ℚ) (ob : Orderbook) :
    (rsiStep P .running h ob).2 = pushPrice h (obMid ob) := by
  simp only [rsiStep]
  rw [if_neg (by simp)]
  split
  · rfl
  · split
    · rfl
    · split <;> rfl

/-- Counterexample for C4: a snapshot whose bid side is empty
(`bid_count = 0`, bid slots zeroed) is *not* ignored: all three running
strategies append the mid-price `(0 + 100) / 2 = 50` — computed from the
zeroed level-0 bid slot — to the empty history. -/
theorem strategies_empty_side_history_changed :
    (meanRevStep (fun q => q) ⟨20, 2⟩ .running []
      { obZeroed with
        asks := { price := 100, quantity := 1, timestamp := 0 } :: List.replicate 19 zeroLevel
        askCount := 1 }).2 = [50] ∧
    (momentumStep ⟨3, 6, 1/100⟩ .running []
      { obZeroed with
        asks := { price := 100, quantity := 1, timestamp := 0 } :: List.replicate 19 zeroLevel
        askCount := 1 }).2 = [50] ∧
    (rsiStep ⟨14, 30, 70⟩ .running []
      { obZeroed with
        asks := { price := 100, quantity := 1, timestamp := 0 } :: List.replicate 19 zeroLevel
        askCount := 1 }).2 = [50] ∧
    ((50 : ℚ) :: []) ≠ ([] : List ℚ) := by
  refine ⟨?_, ?_, ?_, by simp⟩
  · rw [meanRevStep_hist]
    norm_num [pushPrice, obMid, obZeroed, zeroLevel]
  · rw [momentumStep_hist]
    norm_num [pushPrice, obMid, obZeroed, zeroLevel]
  · rw [rsiStep_hist]
    norm_num [pushPrice, obMid, obZeroed, zeroLevel]

/-- Claim C4 (amended): none of the three strategies checks
`bid_count`/`ask_count`: for *every* snapshot — in particular one with an
empty side — the running strategy reads the level-0 slots, appends
`(bids[0].price + asks[0].price) / 2` to the per-symbol history (which
therefore changes), and computes its signal from that extended history. -/
theorem strategies_ignore_counts (sqrtFn : ℚ → ℚ) (P1 : MRParams) (P2 : MomParams)
    (P3 : RsiParams) (h : List ℚ) (ob : Orderbook)
    (_hside : ob.bidCount = 0 ∨ ob.askCount = 0) (hlen : h.length < 100) :
    (meanRevStep sqrtFn P1 .running h ob).2 = h ++ [obMid ob] ∧
    (momentumStep P2 .running h ob).2 = h ++ [obMid ob] ∧
    (rsiStep P3 .running h ob).2 = h ++ [obMid ob] ∧
    (meanRevStep sqrtFn P1 .running h ob).2 ≠ h := by
  have hpush : pushPrice h (obMid ob) = h ++ [obMid ob] := by
    unfold pushPrice
    show (if 100 < (h ++ [obMid ob]).length then (h ++ [obMid ob]).tail else _) = _
    rw [if_neg (by simp; omega)]
  refine ⟨by rw [meanRevStep_hist, hpush], by rw [momentumStep_hist, hpush],
    by rw [rsiStep_hist, hpush], ?_⟩
  rw [meanRevStep_hist, hpush]
  intro hEq
  have hlen2 := congrArg List.length hEq
  simp at hlen2

/-- Witness for C4 (amended): concrete empty-ask snapshot, nonempty
history. -/
theorem strategies_ignore_counts_witness :
    (meanRevStep (fun q => q) ⟨20, 2⟩ .running [7] obZeroed).2 = [7] ++ [obMid obZeroed] ∧
    (momentumStep ⟨3, 6, 1/100⟩ .running [7] obZeroed).2 = [7] ++ [obMid obZeroed] ∧
    (rsiStep ⟨14, 30, 70⟩ .running [7] obZeroed).2 = [7] ++ [obMid obZeroed] ∧
    (meanRevStep (fun q => q) ⟨20, 2⟩ .running [7] obZeroed).2 ≠ [7] :=
  strategies_ignore_counts (fun q => q) ⟨20, 2⟩ ⟨3, 6, 1/100⟩ ⟨14, 30, 70⟩ [7] obZeroed
    (Or.inl rfl) (by norm_num)

/-- Counterexample for C5: with history `[-4, -4, -4, 4, 4]` and a
snapshot of mid-price 4, the long moving average over the most recent 6
samples is 0, yet the signal is BUY, not NONE: the unguarded division
`(short_ma - long_ma) / long_ma = 4 / 0` behaves as IEEE `+inf`, which
exceeds every threshold. -/
theorem momentum_zero_longMa_signal :
    (momentumStep ⟨3, 6, 1/100⟩ .running [-4, -4, -4, 4, 4]
      { obZeroed with
        bids := { price := 4, quantity := 1, timestamp := 0 } :: List.replicate 19 zeroLevel
        asks := { price := 4, quantity := 1, timestamp := 0 } :: List.replicate 19 zeroLevel
        bidCount := 1, askCount := 1 }).1 = .buy ∧
    (lastN (pushPrice [-4, -4, -4, 4, 4]
      (obMid { obZeroed with
        bids := { price := 4, quantity := 1, timestamp := 0 } :: List.replicate 19 zeroLevel
        asks := { price := 4, quantity := 1, timestamp := 0 } :: List.replicate 19 zeroLevel
        bidCount := 1, askCount := 1 })) 6).sum / (6 : ℚ) = 0 ∧
    SignalType.buy ≠ SignalType.sigNone := by
  refine ⟨?_, ?_, by simp⟩
  · simp only [momentumStep, momentumVal, pushPrice, obMid, lastN, obZeroed, zeroLevel,
      fdiv, fgt, flt]
    norm_num
  · simp only [pushPrice, obMid, lastN, obZeroed, zeroLevel]
    norm_num

/-- Claim C5 (amended): once at least `long_period` samples exist and the
long moving average is nonzero, the signal is exactly the claim's
threshold rule on `(short_ma - long_ma) / long_ma`; and the documented
scenario (last three mids `[110, 112, 114]`, last six
`[100, 102, 104, 110, 112, 114]`, threshold 0.01) yields BUY.  (There is
no `long_ma = 0` guard in the code; see the counterexample.) -/
theorem momentum_formula_and_scenario (P : MomParams) (h : List ℚ) (ob : Orderbook)
    (hlen : P.longP ≤ (pushPrice h (obMid ob)).length)
    (hnz : (lastN (pushPrice h (obMid ob)) P.longP).sum / (P.longP : ℚ) ≠ 0) :
    ((momentumStep P .running h ob).1 =
      if P.thr <
          ((lastN (pushPrice h (obMid ob)) P.shortP).sum / (P.shortP : ℚ)
            - (lastN (pushPrice h (obMid ob)) P.longP).sum / (P.longP : ℚ))
            / ((lastN (pushPrice h (obMid ob)) P.longP).sum / (P.longP : ℚ))
        then .buy
        else if ((lastN (pushPrice h (obMid ob)) P.shortP).sum / (P.shortP : ℚ)
            - (lastN (pushPrice h (obMid ob)) P.longP).sum / (P.longP : ℚ))
            / ((lastN (pushPrice h (obMid ob)) P.longP).sum / (P.longP : ℚ)) < -P.thr
        then .sell else .sigNone) ∧
    (momentumStep ⟨3, 6, 1/100⟩ .running [100, 102, 104, 110, 112]
      { obZeroed with
        bids := { price := 114, quantity := 1, timestamp := 0 } :: List.replicate 19 zeroLevel
        asks := { price := 114, quantity := 1, timestamp := 0 } :: List.replicate 19 zeroLevel
        bidCount := 1, askCount := 1 }).1 = .buy := by
  constructor
  · unfold momentumStep
    rw [if_neg (by simp), if_neg (not_lt.mpr hlen)]
    simp only [momentumVal, fdiv, if_neg hnz, fgt, flt]
    split_ifs with h1 h2 <;> simp_all
  · simp only [momentumStep, momentumVal, pushPrice, obMid, lastN, obZeroed, zeroLevel,
      fdiv, fgt, flt]
    norm_num

/-- Witness for C5 (amended): the scenario instance, through the theorem. -/
theorem momentum_formula_and_scenario_witness :
    (momentumStep ⟨3, 6, 1/100⟩ .running [100, 102, 104, 110, 112]
      { obZeroed with
        bids := { price := 114, quantity := 1, timestamp := 0 } :: List.replicate 19 zeroLevel
        asks := { price := 114, quantity := 1, timestamp := 0 } :: List.replicate 19 zeroLevel
        bidCount := 1, askCount := 1 }).1 = .buy :=
  (momentum_formula_and_scenario ⟨3, 6, 1/100⟩ [100, 102, 104, 110, 112]
    { obZeroed with
      bids := { price := 114, quantity := 1, timestamp := 0 } :: List.replicate 19 zeroLevel
      asks := { price := 114, quantity := 1, timestamp := 0 } :: List.replicate 19 zeroLevel
      bidCount := 1, askCount := 1 }
    (by norm_num [pushPrice, obMid, obZeroed, zeroLevel])
    (by norm_num [pushPrice, obMid, lastN, obZeroed, zeroLevel])).2

/-- Claim C6: for any positive period and any history with at least
`period + 1` samples, the windowed RSI lies in `[0, 100]`, and it is
exactly 100 whenever the windowed average loss is zero. -/
theorem calculateRSI_bounds (prices : List ℚ) (period : ℕ) (hp : 1 ≤ period)
    (hlen : period + 1 ≤ prices.length) :
    0 ≤ calculateRSI prices period ∧ calculateRSI prices period ≤ 100 ∧
    (rsiAvgLoss prices period = 0 → calculateRSI prices period = 100) := by
  have hnotlt : ¬(prices.length < period + 1) := by omega
  have hgain : 0 ≤ rsiAvgGain prices period := by
    unfold rsiAvgGain
    apply div_nonneg _ (by positivity)
    apply List.sum_nonneg
    intro x hx
    simp only [List.mem_map] at hx
    obtain ⟨c, _, rfl⟩ := hx
    split <;> linarith
  have hloss : 0 ≤ rsiAvgLoss prices period := by
    unfold rsiAvgLoss
    apply div_nonneg _ (by positivity)
    apply List.sum_nonneg
    intro x hx
    simp only [List.mem_map] at hx
    obtain ⟨c, hc, rfl⟩ := hx
    split
    · linarith
    · next hcc => linarith [not_lt.mp hcc]
  unfold calculateRSI
  rw [if_neg hnotlt]
  by_cases hz : rsiAvgLoss prices period = 0
  · rw [if_pos hz]
    norm_num
  · rw [if_neg hz]
    have hlpos : 0 < rsiAvgLoss prices period := lt_of_le_of_ne hloss (Ne.symm hz)
    have hrs : 0 ≤ rsiAvgGain prices period / rsiAvgLoss prices period :=
      div_nonneg hgain (le_of_lt hlpos)
    have h1pos : (0 : ℚ) < 1 + rsiAvgGain prices period / rsiAvgLoss prices period := by
      linarith
    have hdle : 100 / (1 + rsiAvgGain prices period / rsiAvgLoss prices period) ≤ 100 := by
      rw [div_le_iff₀ h1pos]
      nlinarith
    have hdpos : 0 < 100 / (1 + rsiAvgGain prices period / rsiAvgLoss prices period) := by
      positivity
    exact ⟨by linarith, by linarith, fun hcontra => absurd hcontra hz⟩

/-- Witness for C6: a concrete 3-sample history with period 2. -/
theorem calculateRSI_bounds_witness :
    0 ≤ calculateRSI [1, 3, 2] 2 ∧ calculateRSI [1, 3, 2] 2 ≤ 100 ∧
    (rsiAvgLoss [1, 3, 2] 2 = 0 → calculateRSI [1, 3, 2] 2 = 100) :=
  calculateRSI_bounds [1, 3, 2] 2 (by norm_num) (by norm_num)

set_option maxRecDepth 10000 in
/-- Claim C9: the string signed by `send_signed_request` is the caller's
query string with `timestamp` appended last, the appended `signature`
parameter is the lowercase-hex HMAC-SHA256 of exactly that string keyed
by the account secret, signing is deterministic, and the embedded
HMAC-SHA256 reproduces the reference signature of the specification's
test string and secret. -/
theorem signing_scheme_and_vector (secret query : String) (ts : ℕ)
    (k₁ m₁ k₂ m₂ : String) (hk : k₁ = k₂) (hm : m₁ = m₂) :
    fullSignedQuery secret query ts
      = signedQuery query ts ++ "&signature=" ++ hmacSha256Hex secret (signedQuery query ts) ∧
    signedQuery query ts
      = (if query = "" then "" else query ++ "&") ++ "timestamp=" ++ toString ts ∧
    hmacSha256Hex k₁ m₁ = hmacSha256Hex k₂ m₂ ∧
    hmacSha256Hex "NhqPtmdSJYdKjVHjA7PZj4Mge3R5YNiP1e3UZjInClVN65XAbvqqM6A7H5fATj0j"
        "symbol=BTCUSDT&side=BUY&type=MARKET&quantity=1.00000000&timestamp=1499827319559"
      = "3eed27baa65b6c1a5710ba34f715a9a5cc9d4fc8305ff0b9a2d3f3e01d4ca27a" := by
  refine ⟨rfl, rfl, by rw [hk, hm], ?_⟩
  rfl

/-- Witness for C9: the scheme at a concrete query and timestamp, with
determinism discharged at concrete equal inputs. -/
theorem signing_scheme_and_vector_witness :
    fullSignedQuery "sec" "a=1" 42
      = signedQuery "a=1" 42 ++ "&signature=" ++ hmacSha256Hex "sec" (signedQuery "a=1" 42) ∧
    signedQuery "a=1" 42
      = (if "a=1" = "" then "" else "a=1" ++ "&") ++ "timestamp=" ++ toString 42 ∧
    hmacSha256Hex "k" "m" = hmacSha256Hex "k" "m" ∧
    hmacSha256Hex "NhqPtmdSJYdKjVHjA7PZj4Mge3R5YNiP1e3UZjInClVN65XAbvqqM6A7H5fATj0j"
        "symbol=BTCUSDT&side=BUY&type=MARKET&quantity=1.00000000&timestamp=1499827319559"
      = "3eed27baa65b6c1a5710ba34f715a9a5cc9d4fc8305ff0b9a2d3f3e01d4ca27a" :=
  signing_scheme_and_vector "sec" "a=1" 42 "k" "m" "k" "m" rfl rfl

end CryptoQuant
